import Mathlib

/- Verification development for the exchange-adapter repository
   (dx.exchange adapter, gemini.js, bleutrade.js).

   The adapters' pure request/response logic is shallowly embedded:
   JavaScript numbers are modelled over the rationals, with the
   distinguished values `undefined` and `NaN` made explicit; JavaScript
   strings are Lean strings, and string splitting/searching is done by
   structurally recursive list functions so that concrete instances
   evaluate inside the kernel.  Base-class utilities that are not part of
   the three source files (safeFloat, commonCurrencyCode, hmac, ...) are
   either folded into the field types of the raw-payload records (a raw
   field of type `Option ℚ` is exactly what `safeFloat` observes) or
   passed as explicit function parameters. -/

/-- Taxonomy of normalized error kinds shared across the adapters
(`base/errors` in the repository). -/
inductive ErrKind where
  | exchangeError
  | badRequest
  | authenticationError
  | invalidOrder
  | insufficientFunds
  | requestTimeout
  | orderNotFound
  | invalidNonce
  | ddosProtection
  | exchangeNotAvailable
  | permissionDenied
  | notSupported
  | argumentsRequired
  | invalidAddress
  | jsTypeError
  deriving DecidableEq, Repr

/-- JavaScript numeric values as they appear in normalized records:
`undef` models `undefined`, `nan` models `NaN`, `val q` a finite number. -/
inductive JsNumber where
  | undef
  | nan
  | val (q : ℚ)
  deriving DecidableEq, Repr

/-- What `safeFloat`/`safeInteger` deliver for a raw field: the field value
when present, `undefined` when absent. -/
def jsOfOpt : Option ℚ → JsNumber
  | none => .undef
  | some q => .val q

/-- JavaScript string coercion of a possibly-undefined string value (string
concatenation renders `undefined` as the text "undefined"). -/
def jsStr : Option String → String
  | none => "undefined"
  | some s => s

/-- JavaScript truthiness of a number (`0`, `NaN` and `undefined` are falsy). -/
def JsNumber.truthy : JsNumber → Bool
  | .undef => false
  | .nan => false
  | .val q => q != 0

/-- Does `pre` occur at the head of `l`?  (Structural helper for the broad
substring matching of the error dispatcher.) -/
def listPrefixChk : List Char → List Char → Bool
  | [], _ => true
  | _ :: _, [] => false
  | a :: as, b :: bs => a == b && listPrefixChk as bs

/-- Does `needle` occur anywhere inside `hay`? -/
def listSubstrChk (needle : List Char) : List Char → Bool
  | [] => listPrefixChk needle []
  | b :: bs => listPrefixChk needle (b :: bs) || listSubstrChk needle bs

/-- `needle` occurs as a contiguous substring of `hay` (JavaScript
`hay.indexOf (needle) >= 0`). -/
def strContains (hay needle : String) : Bool :=
  listSubstrChk needle.data hay.data

/-- Fuel-driven splitting of a character list at every occurrence of the
(nonempty) separator, mirroring JavaScript `String.prototype.split`. -/
def splitAuxF (sep : List Char) : List Char → List Char → Nat → List (List Char)
  | rest, acc, 0 => [acc.reverse ++ rest]
  | rest, acc, fuel + 1 =>
    match rest with
    | [] => [acc.reverse]
    | c :: tl =>
      if listPrefixChk sep rest then
        acc.reverse :: splitAuxF sep (rest.drop sep.length) [] fuel
      else
        splitAuxF sep tl (c :: acc) fuel

/-- JavaScript `s.split (sep)` for a nonempty separator string. -/
def jsSplit (s sep : String) : List String :=
  if sep.data.isEmpty then [s]
  else (splitAuxF sep.data s.data [] (s.data.length + 1)).map String.mk

/-- Concatenation of a list of strings interleaved with a separator
(inverse of `jsSplit` on its tail). -/
def joinSep (sep : String) : List String → String
  | [] => ""
  | [a] => a
  | a :: b :: t => a ++ sep ++ joinSep sep (b :: t)

/-- JavaScript `s.replace (pat, repl)` with a plain-string pattern:
only the first occurrence is replaced. -/
def replaceFirst (s pat repl : String) : String :=
  match jsSplit s pat with
  | [] => s
  | [_] => s
  | a :: b :: t => a ++ repl ++ joinSep pat (b :: t)

/-- Numeric value of a list of decimal digit characters. -/
def digitsVal (cs : List Char) : Nat :=
  cs.foldl (fun a c => a * 10 + (c.toNat - 48)) 0

/-- Modelled from the spec: JavaScript's global `parseFloat` (an external
collaborator of the adapters), restricted to plain decimal notation: an
optional sign followed by integer digits and an optional fractional part;
a string with no leading numeric prefix parses to `NaN`. -/
def parseFloat (s : String) : JsNumber :=
  let cs := s.data.dropWhile (fun c => c == ' ')
  let signed := match cs with
    | '-' :: t => (true, t)
    | '+' :: t => (false, t)
    | _ => (false, cs)
  let intPart := signed.2.takeWhile Char.isDigit
  let rest := signed.2.dropWhile Char.isDigit
  let frac := match rest with
    | '.' :: t => t.takeWhile Char.isDigit
    | _ => []
  if intPart.isEmpty && frac.isEmpty then .nan
  else
    let v : ℚ := mkRat (digitsVal intPart * 10 ^ frac.length + digitsVal frac)
      (10 ^ frac.length)
    .val (if signed.1 then -v else v)

/-- Modelled from the spec: the base class `precisionFromString` (not under
`src/`): strips trailing zeros and returns the number of decimal places
after the dot. -/
def precisionFromString (s : String) : Int :=
  let stripped := String.mk ((s.data.reverse.dropWhile (fun c => c == '0')).reverse)
  match jsSplit stripped "." with
  | [_, frac] => (frac.length : Int)
  | _ => 0

/-- Runs `f` over a list, collecting results left to right and aborting at
the first error, exactly like the adapters' `for`-loops whose bodies can
`throw`. -/
def collectE {ε α β : Type} (f : α → Except ε β) : List α → Except ε (List β)
  | [] => .ok []
  | a :: as =>
    match f a with
    | .error e => .error e
    | .ok b =>
      match collectE f as with
      | .error e => .error e
      | .ok bs => .ok (b :: bs)

namespace dx

/-- Modelled from the spec: the base class `decimalToPrecision (x, ROUND,
10, DECIMAL_PLACES, NO_PADDING)` (not under `src/`) renders `x` rounded to
the exchange's declared 10 decimal places; the digit string it produces is
represented here by the scaled integer `round (x * 10^10)`. -/
def scaled10 (x : ℚ) : Int :=
  round (x * 10 ^ 10)

/-- Number of trailing zero digits of the scaled integer, capped by `fuel`:
`NO_PADDING` strips exactly these fractional zeros from the rendered
string. -/
def fracZeros : Int → Nat → Nat
  | _, 0 => 0
  | n, fuel + 1 => if n % 10 = 0 then fracZeros (n / 10) fuel + 1 else 0

/-- `numberToObject` of the dx adapter: renders the number at 10 decimal
places with no padding, takes `decimals` = `precisionFromString` of that
string and `value` = the string with the dot removed, parsed as an
integer. -/
def numberToObject (x : ℚ) : Int × Nat :=
  let n := scaled10 x
  let s := fracZeros n 10
  (n / 10 ^ s, 10 - s)

/-- `objectToNumber` of the dx adapter: parses `value + 'e' + (-decimals)`,
i.e. `value * 10 ^ (-decimals)`. -/
def objectToNumber (o : Int × Nat) : ℚ :=
  (o.1 : ℚ) * 10 ^ (-(o.2 : ℤ))

end dx

/-- Modelled from the spec: the base class `findBroadlyMatchedKey` (not
under `src/`): returns the first entry of the "broad" table whose key
occurs as a substring of the error message, `undefined` when none does. -/
def findBroadlyMatchedKey (broad : List (String × ErrKind)) (s : String) :
    Option (String × ErrKind) :=
  broad.find? (fun kv => strContains s kv.1)

/-- Trading limits of a normalized market record. -/
structure MarketLimits where
  amountMin : JsNumber
  amountMax : JsNumber
  priceMin : JsNumber
  priceMax : JsNumber
  costMin : JsNumber
  costMax : JsNumber
  deriving DecidableEq, Repr

/-- Normalized market record shared by the adapters; `α` is the type of
the exchange-native payload held in `info`. -/
structure MarketRec (α : Type) where
  id : Option String
  numericId : Option Int
  symbol : String
  base : Option String
  quote : Option String
  baseId : Option String
  quoteId : Option String
  baseNumericId : Option Int
  quoteNumericId : Option Int
  active : Option Bool
  info : α
  precisionAmount : JsNumber
  precisionPrice : JsNumber
  limits : MarketLimits

namespace dx

/-- The `asset` sub-object of a dx instrument (fields as observed by
`safeString`/`safeInteger`: present value or `undefined`). -/
structure DxAsset where
  fullName : Option String
  baseCurrencyId : Option Int
  quotedCurrencyId : Option Int
  tailDigits : Option Int

/-- A raw dx instrument as delivered by
`AssetManagement.GetInstruments`. -/
structure DxInstrument where
  id : Option Int
  asset : Option DxAsset
  meQuantityMultiplier : Option ℚ
  minOrderQuantity : Option ℚ
  maxOrderQuantity : Option ℚ

/-- The body of the `fetchMarkets` loop for one instrument.  `ccc` is the
base-class `commonCurrencyCode` and `log10` the JavaScript `Math.log10`,
both passed as parameters.  An instrument whose `asset.fullName` is
missing makes the JavaScript `fullName.split` throw, which is the `error`
case. -/
def mkMarket (ccc : String → String) (log10 : ℚ → ℚ) (instrument : DxInstrument) :
    Except Unit (MarketRec DxInstrument) :=
  let asset := instrument.asset
  match asset.bind DxAsset.fullName with
  | none => .error ()
  | some fullName =>
    let parts := jsSplit fullName "/"
    let base0 := parts.headD ""
    let quote0 := parts[1]?
    let amountPrecision : JsNumber :=
      match instrument.meQuantityMultiplier with
      | none => .nan
      | some m => if m = 0 then .val 0 else .val (log10 m)
    let base := ccc base0
    let quote := quote0.map ccc
    .ok { id := instrument.id.map toString
          numericId := instrument.id
          symbol := base ++ "/" ++ jsStr quote
          base := some base
          quote := quote
          baseId := (asset.bind DxAsset.baseCurrencyId).map toString
          quoteId := (asset.bind DxAsset.quotedCurrencyId).map toString
          baseNumericId := asset.bind DxAsset.baseCurrencyId
          quoteNumericId := asset.bind DxAsset.quotedCurrencyId
          active := none
          info := instrument
          precisionAmount := amountPrecision
          precisionPrice := jsOfOpt ((asset.bind DxAsset.tailDigits).map (fun i => (i : ℚ)))
          limits := { amountMin := jsOfOpt instrument.minOrderQuantity
                      amountMax := jsOfOpt instrument.maxOrderQuantity
                      priceMin := .val 0
                      priceMax := .undef
                      costMin := .val 0
                      costMax := .undef } }

/-- dx `fetchMarkets`, given the decoded `result.instruments` list of the
response. -/
def fetchMarkets (ccc : String → String) (log10 : ℚ → ℚ)
    (instruments : List DxInstrument) : Except Unit (List (MarketRec DxInstrument)) :=
  collectE (mkMarket ccc log10) instruments

/-- A raw dx ticker payload (the single value of the
`result.tickers` object). -/
structure DxRawTicker where
  high24 : Option ℚ
  low24 : Option ℚ
  change : Option ℚ
  volume24 : Option ℚ
  volume24converted : Option ℚ
  last : Option ℚ
  time : Option Int
  deriving DecidableEq, Repr

/-- Normalized ticker record (`open_` stands for the source's `open`
field, which is a reserved word in Lean). -/
structure TickerRec (α : Type) where
  symbol : String
  timestamp : JsNumber
  datetime : Option String
  high : JsNumber
  low : JsNumber
  bid : JsNumber
  bidVolume : JsNumber
  ask : JsNumber
  askVolume : JsNumber
  vwap : JsNumber
  open_ : JsNumber
  close : JsNumber
  last : JsNumber
  previousClose : JsNumber
  change : JsNumber
  percentage : JsNumber
  average : JsNumber
  baseVolume : JsNumber
  quoteVolume : JsNumber
  info : α

/-- dx `parseTicker`.  The wrapper object `{instrumentId: payload}` is the
pair `(tickerKey, payload)`; `symbolOf` models the `markets_by_id` symbol
lookup and `iso8601` the base-class datetime rendering.  Note
`safeInteger (ticker, 'time') / 1000`: when `time` is absent the division
`undefined / 1000` evaluates to `NaN`. -/
def parseTicker (iso8601 : JsNumber → Option String) (symbolOf : Int → String)
    (tickerKey : Int) (payload : DxRawTicker) : TickerRec DxRawTicker :=
  let symbol := symbolOf tickerKey
  let last := jsOfOpt payload.last
  let timestamp : JsNumber :=
    match payload.time with
    | none => .nan
    | some t => .val ((t : ℚ) / 1000)
  { symbol := symbol
    timestamp := timestamp
    datetime := iso8601 timestamp
    high := jsOfOpt payload.high24
    low := jsOfOpt payload.low24
    bid := .undef
    bidVolume := .undef
    ask := .undef
    askVolume := .undef
    vwap := .undef
    open_ := .undef
    close := last
    last := last
    previousClose := .undef
    change := jsOfOpt payload.change
    percentage := .undef
    average := .undef
    baseVolume := jsOfOpt payload.volume24
    quoteVolume := jsOfOpt payload.volume24converted
    info := payload }

/-- The dx `exceptions.exact` table. -/
def exceptionsExact : List (String × ErrKind) :=
  [("EOF", .badRequest)]

/-- The dx `exceptions.broad` table. -/
def exceptionsBroad : List (String × ErrKind) :=
  [("json: cannot unmarshal object into Go value of type", .badRequest),
   ("not allowed to cancel this order", .badRequest),
   ("request timed out", .requestTimeout),
   ("balance_freezing.freezing validation.balance_freeze", .insufficientFunds),
   ("order_creation.validation.validation", .invalidOrder)]

/-- A dx response as observed by `handleErrors`: only its `error` field is
inspected, the whole response is carried into the raised error's
feedback. -/
structure DxResponse where
  error : Option String
  deriving DecidableEq, Repr

/-- dx `handleErrors`: `none` means no error is raised (success responses
and the falsy-response fallback); `some (kind, r)` means an error of the
given taxonomy kind is thrown whose feedback message embeds the raw
response `r`. -/
def handleErrors (response : Option DxResponse) : Option (ErrKind × DxResponse) :=
  match response with
  | none => none
  | some r =>
    match r.error with
    | none => none
    | some e =>
      if e = "" then none
      else
        match exceptionsExact.find? (fun kv => kv.1 == e) with
        | some kv => some (kv.2, r)
        | none =>
          match findBroadlyMatchedKey exceptionsBroad e with
          | some kv => some (kv.2, r)
          | none => some (.exchangeError, r)

/-- The mutable `options` fields that dx `sign` consults (set by
`signIn`). -/
structure Options where
  accessToken : Option String
  expires : Option Int

/-- The JSON-RPC envelope dx `sign` builds; `α` is the type of the
caller's params object. -/
structure RpcRequest (α : Type) where
  jsonrpc : String
  id : Int
  method : String
  params : List α

/-- The outbound request descriptor returned by `sign`. -/
structure SignedRequest (α : Type) where
  url : String
  method : String
  body : Option (RpcRequest α)
  headers : List (String × String)

/-- dx `sign`.  `now` models `this.milliseconds ()`, `urlencode` the
base-class query-string rendering.  For the private API it fails with
`AuthenticationError` before producing any request when no `accessToken`
is held or when the held token's stored expiry is not in the future. -/
def sign {α : Type} (options : Options) (now : Int) (apiUrl : String)
    (urlencode : RpcRequest α → String) (path api method : String) (params : α) :
    Except ErrKind (SignedRequest α) :=
  let parameters : RpcRequest α := ⟨"2.0", now, path, [params]⟩
  let headers := [("Content-Type", "application/json-rpc")]
  let url := if method = "GET" then apiUrl ++ "?" ++ urlencode parameters else apiUrl
  let body : Option (RpcRequest α) := if method = "GET" then none else some parameters
  if api = "private" then
    match options.accessToken with
    | none => .error .authenticationError
    | some token =>
      let expired : Bool := match options.expires with
        | some expires => decide (now ≥ expires)
        | none => false
      if expired then .error .authenticationError
      else .ok ⟨url, method, body, headers ++ [("Authorization", token)]⟩
  else .ok ⟨url, method, body, headers⟩

end dx

/-- JavaScript `s.slice (a, b)` for `0 ≤ a ≤ b` (character positions). -/
def jsSlice (s : String) (a b : Nat) : String :=
  String.mk ((s.data.drop a).take (b - a))

/-- Modelled from the spec: the base class `checkRequiredCredentials` (not
under `src/`): fails fast with `AuthenticationError` when a required
credential (for gemini: both `apiKey` and `secret`) is missing. -/
def checkRequiredCredentials (apiKey secret : Option String) :
    Except ErrKind (String × String) :=
  match apiKey, secret with
  | some k, some s => .ok (k, s)
  | _, _ => .error .authenticationError

/-- Per-instance exchange state: the market cache, `none` until the first
`loadMarkets` call populates it. -/
structure ExchangeState (α : Type) where
  markets : Option (List (MarketRec α))

/-- Modelled from the spec: the base class `loadMarkets` (not under
`src/`): populates the cache on first use with the exchange's fetched
instrument list and reuses it afterwards. -/
def loadMarkets {α : Type} (fetched : List (MarketRec α)) (st : ExchangeState α) :
    ExchangeState α :=
  match st.markets with
  | some _ => st
  | none => ⟨some fetched⟩

/-- A symbol-resolution failure of the base class `market (symbol)`. -/
inductive MarketError where
  | marketsNotLoaded
  | unknownSymbol
  deriving DecidableEq, Repr

/-- Modelled from the spec: the base class `market (symbol)` (not under
`src/`): resolves a unified symbol against the populated cache, failing
with an unknown-symbol error when it is absent and unable to succeed at
all while the cache is unpopulated. -/
def market {α : Type} (st : ExchangeState α) (symbol : String) :
    Except MarketError (MarketRec α) :=
  match st.markets with
  | none => .error .marketsNotLoaded
  | some ms =>
    match ms.find? (fun m => m.symbol == symbol) with
    | some m => .ok m
    | none => .error .unknownSymbol

/-- An outbound network interaction, for the methods whose claim is about
what is (not) sent. -/
inductive NetOp where
  | loadMarketsCall
  | postWithdrawCurrency (currencyId : String) (amount : ℚ) (address : String)
  deriving DecidableEq, Repr

/-- Modelled from the spec: the base class `checkAddress` (not under
`src/`): validates a destination address, throwing before anything else
happens when it is invalid. -/
def checkAddress (isValidAddress : String → Bool) (address : String) :
    Except ErrKind String :=
  if isValidAddress address then .ok address else .error .invalidAddress

/-- A fee sub-record of a normalized record. -/
structure FeeRec where
  cost : JsNumber
  currency : Option String
  deriving DecidableEq, Repr

namespace gemini

/-- The gemini `exceptions.exact` table. -/
def exceptionsExact : List (String × ErrKind) :=
  [("AuctionNotOpen", .badRequest),
   ("ClientOrderIdTooLong", .badRequest),
   ("ClientOrderIdMustBeString", .badRequest),
   ("ConflictingOptions", .badRequest),
   ("EndpointMismatch", .badRequest),
   ("EndpointNotFound", .badRequest),
   ("IneligibleTiming", .badRequest),
   ("InsufficientFunds", .insufficientFunds),
   ("InvalidJson", .badRequest),
   ("InvalidNonce", .invalidNonce),
   ("InvalidOrderType", .invalidOrder),
   ("InvalidPrice", .invalidOrder),
   ("InvalidQuantity", .invalidOrder),
   ("InvalidSide", .invalidOrder),
   ("InvalidSignature", .authenticationError),
   ("InvalidSymbol", .badRequest),
   ("InvalidTimestampInPayload", .badRequest),
   ("Maintenance", .exchangeNotAvailable),
   ("MarketNotOpen", .invalidOrder),
   ("MissingApikeyHeader", .authenticationError),
   ("MissingOrderField", .invalidOrder),
   ("MissingRole", .authenticationError),
   ("MissingPayloadHeader", .authenticationError),
   ("MissingSignatureHeader", .authenticationError),
   ("NoSSL", .authenticationError),
   ("OptionsMustBeArray", .badRequest),
   ("OrderNotFound", .orderNotFound),
   ("RateLimit", .ddosProtection),
   ("System", .exchangeError),
   ("UnsupportedOption", .badRequest)]

/-- The gemini `exceptions.broad` table (empty). -/
def exceptionsBroad : List (String × ErrKind) := []

/-- The body of the `fetchMarketsFromAPI` loop for one symbol id of the
`publicGetSymbols` response. -/
def mkMarketFromAPI (ccc : String → String) (id : String) : MarketRec String :=
  let baseId := jsSlice id 0 3
  let quoteId := jsSlice id 3 6
  let base := ccc baseId.toUpper
  let quote := ccc quoteId.toUpper
  { id := some id
    numericId := none
    symbol := base ++ "/" ++ quote
    base := some base
    quote := some quote
    baseId := some baseId
    quoteId := some quoteId
    baseNumericId := none
    quoteNumericId := none
    active := none
    info := id
    precisionAmount := .undef
    precisionPrice := .undef
    limits := { amountMin := .undef
                amountMax := .undef
                priceMin := .undef
                priceMax := .undef
                costMin := .undef
                costMax := .undef } }

/-- gemini `fetchMarketsFromAPI`, given the decoded symbol-id list. -/
def fetchMarketsFromAPI (ccc : String → String) (response : List String) :
    List (MarketRec String) :=
  response.map (mkMarketFromAPI ccc)

/-- The body of the `fetchMarketsFromWeb` loop for one `<tr>` row of the
documentation page. -/
def mkMarketFromWebRow (ccc : String → String) (row : String) :
    Except ErrKind (MarketRec String) :=
  let cells := jsSplit row "</td>\n"
  if cells.length < 7 then .error .notSupported
  else
    let id0 := replaceFirst (cells.headD "") "<td>" ""
    let id1 := replaceFirst id0 "<code class=\"prettyprint\">" ""
    let id := replaceFirst id1 "</code>" ""
    let baseId0 := replaceFirst (cells.getD 2 "") "<td>" ""
    let quoteId0 := replaceFirst (cells.getD 1 "") "<td>" ""
    let minAmountAsString := replaceFirst (cells.getD 3 "") "<td>" ""
    let amountTickSizeAsString := replaceFirst (cells.getD 4 "") "<td>" ""
    let priceTickSizeAsString := replaceFirst (cells.getD 5 "") "<td>" ""
    let minAmount := jsSplit minAmountAsString " "
    let amountPrecision := jsSplit amountTickSizeAsString " "
    let pricePrecision := jsSplit priceTickSizeAsString " "
    let base := ccc baseId0
    let quote := ccc quoteId0
    let symbol := base ++ "/" ++ quote
    .ok { id := some id
          numericId := none
          symbol := symbol
          base := some base
          quote := some quote
          baseId := some baseId0.toLower
          quoteId := some quoteId0.toLower
          baseNumericId := none
          quoteNumericId := none
          active := none
          info := row
          precisionAmount := .val ((precisionFromString (amountPrecision.headD "") : ℚ))
          precisionPrice := .val ((precisionFromString (pricePrecision.headD "") : ℚ))
          limits := { amountMin := parseFloat (minAmount.headD "")
                      amountMax := .undef
                      priceMin := .undef
                      priceMax := .undef
                      costMin := .undef
                      costMax := .undef } }

/-- gemini `fetchMarketsFromWeb`, given the documentation page HTML. -/
def fetchMarketsFromWeb (ccc : String → String) (response : String) :
    Except ErrKind (List (MarketRec String)) :=
  let sections := jsSplit response "<h1 id=\"symbols-and-minimums\">Symbols and minimums</h1>"
  if sections.length ≠ 2 then .error .notSupported
  else
    let tables := jsSplit (sections.getD 1 "") "tbody>"
    if tables.length < 2 then .error .notSupported
    else
      let rows := jsSplit (tables.getD 1 "") "<tr>\n"
      if rows.length < 2 then .error .notSupported
      else collectE (mkMarketFromWebRow ccc) (rows.drop 1)

/-- A raw gemini trade payload, fields as `safeFloat`/`safeString`
observe them. -/
structure GeminiRawTrade where
  timestampms : Option Int
  tid : Option String
  order_id : Option String
  fee_amount : Option ℚ
  fee_currency : Option String
  price : Option ℚ
  amount : Option ℚ
  type : Option String
  deriving DecidableEq, Repr

/-- Normalized trade record. -/
structure TradeRec (α : Type) where
  id : Option String
  order : Option String
  info : α
  timestamp : Option Int
  datetime : Option String
  symbol : Option String
  type : Option String
  side : Option String
  takerOrMaker : Option String
  price : JsNumber
  cost : JsNumber
  amount : JsNumber
  fee : Option FeeRec

/-- gemini `parseTrade`.  `currenciesById` models the
`currencies_by_id` code lookup, `ccc` the base `commonCurrencyCode`,
`iso8601` the datetime rendering, and `marketSymbol` the `symbol` of the
optional `market` argument. -/
def parseTrade (currenciesById : String → Option String) (ccc : String → String)
    (iso8601 : Option Int → Option String) (t : GeminiRawTrade)
    (marketSymbol : Option String) : TradeRec GeminiRawTrade :=
  let timestamp := t.timestampms
  let fee : Option FeeRec :=
    match t.fee_amount with
    | none => none
    | some fa =>
      let currency := t.fee_currency.map (fun c =>
        ccc (match currenciesById c with
             | some code => code
             | none => c))
      some { cost := .val fa, currency := currency }
  let cost : JsNumber :=
    match t.price, t.amount with
    | some p, some a => .val (p * a)
    | _, _ => .undef
  { id := t.tid
    order := t.order_id
    info := t
    timestamp := timestamp
    datetime := iso8601 timestamp
    symbol := marketSymbol
    type := none
    side := t.type.map String.toLower
    takerOrMaker := none
    price := jsOfOpt t.price
    cost := cost
    amount := jsOfOpt t.amount
    fee := fee }

/-- A raw gemini transfer payload as consumed by `parseTransaction`. -/
structure GeminiRawTransaction where
  timestampms : Option Int
  currency : Option String
  destination : Option String
  type : Option String
  status : Option String
  eid : Option String
  txHash : Option String
  feeAmount : Option ℚ
  amount : Option ℚ
  deriving DecidableEq, Repr

/-- Normalized transaction (deposit/withdrawal) record. -/
structure TransactionRec (α : Type) where
  info : α
  id : Option String
  txid : Option String
  timestamp : Option Int
  datetime : Option String
  address : Option String
  tag : Option String
  type : Option String
  amount : JsNumber
  currency : Option String
  status : String
  updated : Option Int
  fee : Option FeeRec

/-- gemini `parseTransaction`.  The optional `currency` argument and the
`currencies_by_id` entries are represented by their `code` strings.  The
`status` field of the raw payload is tested for truthiness: any nonempty
string means the transfer is available (`ok`), otherwise `pending`. -/
def parseTransaction (currenciesById : String → Option String)
    (iso8601 : Option Int → Option String) (t : GeminiRawTransaction)
    (currency : Option String) : TransactionRec GeminiRawTransaction :=
  let timestamp := t.timestampms
  let code : Option String :=
    match currency with
    | some c => some c
    | none => t.currency.bind currenciesById
  let statusTruthy : Bool := match t.status with
    | some s => s != ""
    | none => false
  let status := if statusTruthy then "ok" else "pending"
  let fee : Option FeeRec :=
    match t.feeAmount with
    | none => none
    | some fa => some { cost := .val fa, currency := code }
  { info := t
    id := t.eid
    txid := t.txHash
    timestamp := timestamp
    datetime := iso8601 timestamp
    address := t.destination
    tag := none
    type := t.type.map String.toLower
    amount := jsOfOpt t.amount
    currency := code
    status := status
    updated := none
    fee := fee }

/-- The outbound request descriptor gemini `sign` returns. -/
structure GeminiSignedRequest where
  url : String
  method : String
  body : Option String
  headers : List (String × String)

/-- gemini `sign`.  `jsonPayload` models `json (extend ({request, nonce},
query))`, `stringToBase64` and `hmacSha384` the base encoding utilities,
`apiUrls` the per-section base URL table.  Private endpoints check the
credentials first and sign the base64 payload with the secret. -/
def sign (apiKey secret : Option String) (nonce : Int)
    (jsonPayload : String → Int → String) (stringToBase64 : String → String)
    (hmacSha384 : String → String → String) (apiUrls : String → String)
    (version path api method : String) (queryStr : String) :
    Except ErrKind GeminiSignedRequest :=
  let url0 := "/" ++ path
  let url1 := if api ≠ "web" then "/" ++ version ++ url0 else url0
  if api = "private" then
    match checkRequiredCredentials apiKey secret with
    | .error e => .error e
    | .ok ks =>
      let payload := stringToBase64 (jsonPayload url1 nonce)
      let signature := hmacSha384 payload ks.2
      .ok { url := apiUrls api ++ url1
            method := method
            body := none
            headers := [("Content-Type", "text/plain"),
                        ("X-GEMINI-APIKEY", ks.1),
                        ("X-GEMINI-PAYLOAD", payload),
                        ("X-GEMINI-SIGNATURE", signature)] }
  else
    let url2 := if queryStr ≠ "" then url1 ++ "?" ++ queryStr else url1
    .ok { url := apiUrls api ++ url2
          method := method
          body := none
          headers := [] }

/-- A gemini response as observed by `handleErrors`. -/
structure GeminiResponse where
  result : Option String
  reason : Option String
  message : Option String
  deriving DecidableEq, Repr

/-- gemini `handleErrors`: `none` means no error raised; `some (kind, m)`
means an error of that kind is thrown whose feedback embeds the
response's native `message`.  The `reason` is looked up in the exact
table first, then the `message`, then the (empty) broad table, falling
back to the generic `ExchangeError`. -/
def handleErrors (response : Option GeminiResponse) : Option (ErrKind × Option String) :=
  match response with
  | none => none
  | some r =>
    if r.result = some "error" then
      let feedback := r.message
      match r.reason.bind (fun e => exceptionsExact.find? (fun kv => kv.1 == e)) with
      | some kv => some (kv.2, feedback)
      | none =>
        match r.message.bind (fun m => exceptionsExact.find? (fun kv => kv.1 == m)) with
        | some kv => some (kv.2, feedback)
        | none =>
          match r.message.bind (fun m => findBroadlyMatchedKey exceptionsBroad m) with
          | some kv => some (kv.2, feedback)
          | none => some (.exchangeError, feedback)
    else none

/-- The outbound `order/new` request body built by `createOrder` (numeric
arguments kept as numbers; the source renders them with `toString`). -/
structure GeminiOrderRequest where
  client_order_id : String
  symbol : String
  amount : ℚ
  price : ℚ
  side : String
  type : String
  deriving DecidableEq, Repr

/-- Failures of `createOrder` before the order request is issued. -/
inductive CreateOrderErr where
  | exchangeError
  | marketError (e : MarketError)
  | jsTypeError
  deriving DecidableEq, Repr

/-- gemini `createOrder`: loads markets, refuses market orders with
`ExchangeError`, and otherwise issues an `order/new` request whose `type`
is the literal `'exchange limit'`.  A `.ok` result is the issued order
request; any `.error` means no order request was issued.  A missing
`price` makes the JavaScript `price.toString ()` throw. -/
def createOrder {α : Type} (fetched : List (MarketRec α)) (st : ExchangeState α)
    (nonce : Int) (symbol type side : String) (amount : ℚ) (price : Option ℚ) :
    ExchangeState α × Except CreateOrderErr GeminiOrderRequest :=
  let st1 := loadMarkets fetched st
  if type = "market" then (st1, .error .exchangeError)
  else
    match market st1 symbol with
    | .error e => (st1, .error (.marketError e))
    | .ok m =>
      match price with
      | none => (st1, .error .jsTypeError)
      | some p =>
        (st1, .ok { client_order_id := toString nonce
                    symbol := jsStr m.id
                    amount := amount
                    price := p
                    side := side
                    type := "exchange limit" })

/-- The market-resolution skeleton of gemini `fetchOpenOrders`: markets
are loaded first, the private orders are fetched and parsed, and only
then is the optional `symbol` resolved (throwing on a non-existent
symbol) to filter the parsed orders. -/
def fetchOpenOrdersStep {α : Type} (fetched : List (MarketRec α)) (st : ExchangeState α)
    (symbol : Option String) : ExchangeState α × Except MarketError (Option String) :=
  let st1 := loadMarkets fetched st
  match symbol with
  | none => (st1, .ok none)
  | some s =>
    match market st1 s with
    | .error e => (st1, .error e)
    | .ok m => (st1, .ok (some m.symbol))

/-- The result record of gemini `withdraw`; `β` is the raw response
type. -/
structure WithdrawResult (β : Type) where
  info : β
  id : Option String

/-- gemini `withdraw`: validates the address first (`checkAddress`), and
only then loads markets, resolves the currency (the base `currency (code)`
throws `ExchangeError` on an unknown code) and posts the withdrawal.  The
first component lists the outbound network interactions in order. -/
def withdraw {β : Type} (isValidAddress : String → Bool)
    (currencyIdOf : String → Option String) (txHashOf : β → Option String)
    (response : β) (code : String) (amount : ℚ) (address : String) :
    List NetOp × Except ErrKind (WithdrawResult β) :=
  match checkAddress isValidAddress address with
  | .error e => ([], .error e)
  | .ok _ =>
    match currencyIdOf code with
    | none => ([.loadMarketsCall], .error .exchangeError)
    | some cid =>
      ([.loadMarketsCall, .postWithdrawCurrency cid amount address],
       .ok { info := response, id := txHashOf response })

end gemini

/-- JavaScript truthiness of a possibly-absent string (the adapters test
raw fields like `order['Opened']` directly). -/
def strOptTruthy : Option String → Bool
  | some s => s != ""
  | none => false

namespace dx

/-- The `AssetManagement.GetTicker` request body. -/
structure DxTickerRequest where
  instrumentIds : List (Option Int)
  currencyId : Option Int
  deriving DecidableEq, Repr

/-- The market-resolution skeleton of dx `fetchTicker`: markets are loaded
first, then the symbol is resolved to build the request. -/
def fetchTickerStep {α : Type} (fetched : List (MarketRec α)) (st : ExchangeState α)
    (symbol : String) : ExchangeState α × Except MarketError DxTickerRequest :=
  let st1 := loadMarkets fetched st
  match market st1 symbol with
  | .error e => (st1, .error e)
  | .ok m => (st1, .ok { instrumentIds := [m.numericId], currencyId := m.quoteNumericId })

end dx

namespace bleutrade

/-- bleutrade `parseOrderStatus`: translates the exchange-native status
words, leaving unknown ones unchanged. -/
def parseOrderStatus (status : Option String) : Option String :=
  let statuses : List (String × String) :=
    [("OK", "closed"), ("OPEN", "open"), ("CANCELED", "canceled")]
  match status with
  | none => none
  | some s =>
    match statuses.find? (fun kv => kv.1 == s) with
    | some kv => some kv.2
    | none => some s

/-- bleutrade `parseSymbol`: splits the exchange-native id at the
configured separator and rejoins the common-currency-coded halves with
`/`. -/
def parseSymbol (ccc : String → String) (symbolSeparator : String) (id : String) : String :=
  let parts := jsSplit id symbolSeparator
  let base := ccc (parts.headD "")
  let quote := parts[1]?.map ccc
  base ++ "/" ++ jsStr quote

/-- The fragment of a resolved market that bleutrade `parseOrder`
reads (`market['symbol']` and `market['quote']`). -/
structure BleuMarketRef where
  symbol : String
  quote : String
  deriving DecidableEq, Repr

/-- A raw bleutrade/bittrex order payload, fields as observed by
`safeString`/`safeFloat` and the `in` presence checks. -/
structure BleuRawOrder where
  OrderType : Option String
  Type_ : Option String
  Opened : Option String
  Closed : Option String
  CancelInitiated : Option Bool
  Status : Option String
  Exchange : Option String
  TimeStamp : Option String
  Created : Option String
  Commission : Option ℚ
  CommissionPaid : Option ℚ
  Price : Option ℚ
  Quantity : Option ℚ
  QuantityRemaining : Option ℚ
  PricePerUnit : Option ℚ
  OrderUuid : Option String
  OrderId : Option String
  deriving DecidableEq, Repr

/-- Normalized order record. -/
structure OrderRec (α : Type) where
  info : α
  id : Option String
  timestamp : Option Int
  datetime : Option String
  lastTradeTimestamp : Option Int
  symbol : Option String
  type : Option String
  side : Option String
  price : JsNumber
  cost : JsNumber
  average : JsNumber
  amount : JsNumber
  filled : JsNumber
  remaining : JsNumber
  status : Option String
  fee : Option FeeRec

/-- bleutrade `parseOrder`.  `parse8601`/`iso8601` are the base datetime
utilities, `currenciesById` the `currencies_by_id` code lookup,
`marketsById` the `markets_by_id` lookup, `parseOrderStatusFlag` the
`options['parseOrderStatus']` switch (`true` for bleutrade) and
`symbolSeparator` the `options['symbolSeparator']` (`'_'`). -/
def parseOrder (parse8601 : String → Option Int) (iso8601 : Option Int → Option String)
    (ccc : String → String) (currenciesById : String → Option String)
    (marketsById : String → Option BleuMarketRef)
    (parseOrderStatusFlag : Bool) (symbolSeparator : String)
    (order : BleuRawOrder) (marketArg : Option BleuMarketRef) : OrderRec BleuRawOrder :=
  let side0 := match order.OrderType with
    | some s => some s
    | none => order.Type_
  let side :=
    if side0 == some "LIMIT_BUY" || side0 == some "BUY" then some "buy"
    else if side0 == some "LIMIT_SELL" || side0 == some "SELL" then some "sell"
    else side0
  let status1 := if strOptTruthy order.Opened then some "open" else (none : Option String)
  let status2 := if strOptTruthy order.Closed then some "closed" else status1
  let status3 := if order.CancelInitiated == some true then some "canceled" else status2
  let status := if order.Status.isSome && parseOrderStatusFlag
    then parseOrderStatus order.Status else status3
  let resolved : Option BleuMarketRef × Option String :=
    match order.Exchange with
    | none => (marketArg, marketArg.map BleuMarketRef.symbol)
    | some marketId =>
      match marketsById marketId with
      | some m => (some m, some m.symbol)
      | none => (marketArg, some (parseSymbol ccc symbolSeparator marketId))
  let market1 := resolved.1
  let symbol := resolved.2
  let ts1 := match order.Opened with
    | some o => parse8601 (o ++ "+00:00")
    | none => none
  let ts2 := match order.Created with
    | some c => parse8601 (c ++ "+00:00")
    | none => ts1
  let ltt1 := match order.TimeStamp with
    | some ts => parse8601 (ts ++ "+00:00")
    | none => none
  let lastTradeTimestamp := match order.Closed with
    | some c => parse8601 (c ++ "+00:00")
    | none => ltt1
  let timestamp := match ts2 with
    | none => lastTradeTimestamp
    | some v => some v
  let commission : Option String :=
    if order.Commission.isSome then some "Commission"
    else if order.CommissionPaid.isSome then some "CommissionPaid"
    else none
  let fee : Option FeeRec :=
    match commission with
    | none => none
    | some key =>
      let cost := jsOfOpt (if key == "Commission" then order.Commission
                           else order.CommissionPaid)
      let feeCurrency : Option String :=
        match market1 with
        | some m => some m.quote
        | none =>
          match symbol with
          | none => none
          | some sym =>
            match (jsSplit sym "/")[1]? with
            | none => none
            | some quoteCurrencyId =>
              match currenciesById quoteCurrencyId with
              | some code => some code
              | none => some (ccc quoteCurrencyId)
      some { cost := cost, currency := feeCurrency }
  let price0 := jsOfOpt order.Price
  let amount := jsOfOpt order.Quantity
  let remaining := jsOfOpt order.QuantityRemaining
  let filled : JsNumber :=
    match order.Quantity, order.QuantityRemaining with
    | some a, some r => .val (a - r)
    | _, _ => .undef
  let cost : JsNumber :=
    match price0, filled with
    | .val p, .val f => if p ≠ 0 ∧ f ≠ 0 then .val (p * f) else .undef
    | _, _ => .undef
  let price : JsNumber :=
    if price0.truthy then price0
    else
      match cost, filled with
      | .val c, .val f => if c ≠ 0 ∧ f ≠ 0 then .val (c / f) else price0
      | _, _ => price0
  let id := match order.OrderUuid with
    | some i => some i
    | none => order.OrderId
  { info := order
    id := id
    timestamp := timestamp
    datetime := iso8601 timestamp
    lastTradeTimestamp := lastTradeTimestamp
    symbol := symbol
    type := some "limit"
    side := side
    price := price
    cost := cost
    average := jsOfOpt order.PricePerUnit
    amount := amount
    filled := filled
    remaining := remaining
    status := status
    fee := fee }

/-- A raw bleutrade deposit/withdrawal payload. -/
structure BleuRawTransaction where
  Id : Option String
  Coin : Option String
  Amount : Option ℚ
  TimeStamp : Option String
  Label : Option String
  TransactionId : Option String
  deriving DecidableEq, Repr

/-- bleutrade `parseTransaction`.  A missing `Label` makes the JavaScript
`label.split (';')` throw, which is the `error` case.  A negative raw
`Amount` marks a withdrawal and is negated; a three-part `Label`
(`amount;address;fee`) then overrides amount, address and fee cost with
`parseFloat` of the label text.  A `TransactionId` equal to `'CANCELED'`
clears the txid and marks the transaction canceled. -/
def parseTransaction (parse8601 : String → Option Int)
    (iso8601 : Option Int → Option String) (currenciesById : String → Option String)
    (ccc : String → String) (t : BleuRawTransaction) :
    Except Unit (gemini.TransactionRec BleuRawTransaction) :=
  let amount0 := jsOfOpt t.Amount
  let classified : JsNumber × String :=
    match t.Amount with
    | some a => if a < 0 then (.val (-a), "withdrawal") else (amount0, "deposit")
    | none => (amount0, "deposit")
  let currency := t.Coin.bind currenciesById
  let code : Option String :=
    match currency with
    | some c => some c
    | none => t.Coin.map ccc
  let timestampV := t.TimeStamp.bind parse8601
  match t.Label with
  | none => .error ()
  | some label =>
    let labelParts := jsSplit label ";"
    let overridden : JsNumber × Option String × JsNumber :=
      if labelParts.length == 3 then
        (parseFloat (labelParts.headD ""), some (labelParts.getD 1 ""),
         parseFloat (labelParts.getD 2 ""))
      else (classified.1, some label, .undef)
    let fee : Option FeeRec :=
      if overridden.2.2 == .undef then none
      else some { currency := code, cost := overridden.2.2 }
    let canceled : Option String × String :=
      if t.TransactionId == some "CANCELED" then (none, "canceled")
      else (t.TransactionId, "ok")
    .ok { info := t
          timestamp := timestampV
          datetime := iso8601 timestampV
          id := t.Id
          currency := code
          amount := overridden.1
          address := overridden.2.1
          tag := none
          status := canceled.2
          type := some classified.2
          updated := none
          txid := canceled.1
          fee := fee }

/-- The `public/orderbook` request body. -/
structure BleuOrderBookRequest where
  market : String
  type : String
  depth : Option Nat
  deriving DecidableEq, Repr

/-- The market-resolution skeleton of bleutrade `fetchOrderBook`: markets
are loaded first, then the symbol is resolved (`marketId`) to build the
request. -/
def fetchOrderBookStep {α : Type} (fetched : List (MarketRec α)) (st : ExchangeState α)
    (symbol : String) (limit : Option Nat) :
    ExchangeState α × Except MarketError BleuOrderBookRequest :=
  let st1 := loadMarkets fetched st
  match market st1 symbol with
  | .error e => (st1, .error e)
  | .ok m =>
    let request0 : BleuOrderBookRequest := { market := jsStr m.id, type := "ALL", depth := none }
    let request := match limit with
      | some l => { request0 with depth := some l }
      | none => request0
    (st1, .ok request)

end bleutrade

/-- A sample cached market used to instantiate the state-machine
theorems. -/
def sampleMarket : MarketRec Unit :=
  { id := some "btcusd"
    numericId := some 7
    symbol := "BTC/USD"
    base := some "BTC"
    quote := some "USD"
    baseId := some "btc"
    quoteId := some "usd"
    baseNumericId := some 1
    quoteNumericId := some 9
    active := none
    info := ()
    precisionAmount := .undef
    precisionPrice := .undef
    limits := ⟨.undef, .undef, .undef, .undef, .undef, .undef⟩ }

theorem dx_fracZeros_le (f : Nat) : ∀ n : Int, dx.fracZeros n f ≤ f := by
  induction f with
  | zero => intro n; simp [dx.fracZeros]
  | succ f ih =>
    intro n
    by_cases h : n % 10 = 0
    · simp only [dx.fracZeros, if_pos h]
      exact Nat.succ_le_succ (ih (n / 10))
    · simp [dx.fracZeros, h]

theorem dx_pow_fracZeros_dvd (f : Nat) : ∀ n : Int, (10 : ℤ) ^ dx.fracZeros n f ∣ n := by
  induction f with
  | zero => intro n; simp [dx.fracZeros]
  | succ f ih =>
    intro n
    by_cases h : n % 10 = 0
    · simp only [dx.fracZeros, if_pos h]
      have h10 : (10 : ℤ) ∣ n := Int.dvd_of_emod_eq_zero h
      obtain ⟨k, hk⟩ := ih (n / 10)
      refine ⟨k, ?_⟩
      rw [pow_succ]
      conv_lhs => rw [(Int.ediv_mul_cancel h10).symm, hk]
      ring
    · simp [dx.fracZeros, h]

/-- Stripping the trailing zeros from the scaled digit string and
re-scaling by the remaining decimals recovers exactly the 10-decimal
rounding of the input. -/
theorem dx_roundtrip_eq (x : ℚ) :
    dx.objectToNumber (dx.numberToObject x) = (dx.scaled10 x : ℚ) / 10 ^ 10 := by
  unfold dx.objectToNumber dx.numberToObject
  set n := dx.scaled10 x with hn
  set s := dx.fracZeros n 10 with hs
  have hsle : s ≤ 10 := dx_fracZeros_le 10 n
  obtain ⟨k, hk⟩ := dx_pow_fracZeros_dvd 10 n
  have hp : (10 : ℤ) ^ s ≠ 0 := by positivity
  have hdiv : n / 10 ^ s = k := by rw [hk]; exact Int.mul_ediv_cancel_left k hp
  simp only [hdiv]
  have hcast : (n : ℚ) = 10 ^ s * (k : ℚ) := by exact_mod_cast congrArg Int.cast hk
  rw [hcast]
  have hsplit : (10 : ℚ) ^ (10 : ℕ) = 10 ^ s * 10 ^ (10 - s) := by
    rw [← pow_add]
    congr 1
    omega
  have h10s : ((10 : ℚ) ^ s) ≠ 0 := by positivity
  rw [hsplit, mul_div_mul_left _ _ h10s, zpow_neg, zpow_natCast, div_eq_mul_inv]

/-- C1: for the dx adapter, `objectToNumber (numberToObject x)` is within
the exchange's declared decimal precision (10 decimal places) of `x`, for
every value `x` — in particular zero and fractional amounts.  The
encoding loses at most the sub-10⁻¹⁰ rounding of `decimalToPrecision`. -/
theorem c1_dx_objectToNumber_numberToObject_roundtrip (x : ℚ) :
    |dx.objectToNumber (dx.numberToObject x) - x| ≤ 1 / 10 ^ 10 := by
  rw [dx_roundtrip_eq]
  have hE : (0 : ℚ) < 10 ^ 10 := by positivity
  have heq : (dx.scaled10 x : ℚ) / 10 ^ 10 - x
      = ((dx.scaled10 x : ℚ) - x * 10 ^ 10) / 10 ^ 10 := by
    ring
  rw [heq, abs_div, abs_of_pos hE]
  have hround : |(dx.scaled10 x : ℚ) - x * 10 ^ 10| ≤ 1 := by
    unfold dx.scaled10
    rw [abs_sub_comm]
    exact le_trans (abs_sub_round (x * 10 ^ 10)) (by norm_num)
  gcongr

theorem find_entry_of_mem {β : Type} {l : List (String × β)} {a : String} {b : β}
    (hnd : (l.map Prod.fst).Nodup) (h : (a, b) ∈ l) :
    l.find? (fun kv => kv.1 == a) = some (a, b) := by
  induction l with
  | nil => simp at h
  | cons p t ih =>
    have hnd2 : p.1 ∉ t.map Prod.fst ∧ (t.map Prod.fst).Nodup := by
      rw [List.map_cons] at hnd
      exact List.nodup_cons.mp hnd
    rcases List.mem_cons.mp h with h | h
    · rw [← h]
      simp [List.find?]
    · have hpa : (p.1 == a) = false := by
        refine beq_eq_false_iff_ne.mpr ?_
        intro heq
        exact hnd2.1 (heq ▸ List.mem_map.mpr ⟨(a, b), h, rfl⟩)
      rw [List.find?_cons, hpa]
      exact ih hnd2.2 h

theorem find_none_of_not_mem {β : Type} {l : List (String × β)} {a : String}
    (h : a ∉ l.map Prod.fst) : l.find? (fun kv => kv.1 == a) = none := by
  induction l with
  | nil => rfl
  | cons p t ih =>
    have hpa : (p.1 == a) = false := by
      refine beq_eq_false_iff_ne.mpr ?_
      intro heq
      exact h (by simp [heq])
    rw [List.find?_cons, hpa]
    exact ih (fun hm => h (by simp at hm ⊢; exact Or.inr hm))

/-- The dispatch shape of dx `handleErrors` once a truthy error string is
present. -/
theorem dx_handleErrors_shape (r : dx.DxResponse) (e : String)
    (he : r.error = some e) (hne : e ≠ "") :
    dx.handleErrors (some r) =
      (match dx.exceptionsExact.find? (fun kv => kv.1 == e) with
       | some kv => some (kv.2, r)
       | none =>
         match findBroadlyMatchedKey dx.exceptionsBroad e with
         | some kv => some (kv.2, r)
         | none => some (.exchangeError, r)) := by
  simp only [dx.handleErrors, he]
  rw [if_neg hne]

/-- The dispatch shape of gemini `handleErrors` on an error result. -/
theorem gemini_handleErrors_shape (r : gemini.GeminiResponse)
    (hres : r.result = some "error") :
    gemini.handleErrors (some r) =
      (match r.reason.bind (fun e => gemini.exceptionsExact.find? (fun kv => kv.1 == e)) with
       | some kv => some (kv.2, r.message)
       | none =>
         match r.message.bind (fun m => gemini.exceptionsExact.find? (fun kv => kv.1 == m)) with
         | some kv => some (kv.2, r.message)
         | none =>
           match r.message.bind (fun m => findBroadlyMatchedKey gemini.exceptionsBroad m) with
           | some kv => some (kv.2, r.message)
           | none => some (.exchangeError, r.message)) := by
  simp only [gemini.handleErrors, hres]
  simp

/-- C2: for every non-success response, dx `handleErrors` looks the native
error string up in the exact table first, then in the broad substring
table, raising the mapped taxonomy kind, and otherwise raises the generic
`ExchangeError` carrying the raw response; gemini `handleErrors` does the
same with the native `reason`/`message` against its exact table, its broad
table being empty, with the feedback embedding the native message. -/
theorem c2_handleErrors_dispatch :
    (∀ (r : dx.DxResponse) (e : String), r.error = some e → e ≠ "" →
      ((∀ k, (e, k) ∈ dx.exceptionsExact → dx.handleErrors (some r) = some (k, r)) ∧
       (e ∉ dx.exceptionsExact.map Prod.fst →
         (∀ bk k, findBroadlyMatchedKey dx.exceptionsBroad e = some (bk, k) →
            dx.handleErrors (some r) = some (k, r)) ∧
         (findBroadlyMatchedKey dx.exceptionsBroad e = none →
            dx.handleErrors (some r) = some (.exchangeError, r))))) ∧
    (∀ (r : gemini.GeminiResponse), r.result = some "error" →
      ((∀ e k, r.reason = some e → (e, k) ∈ gemini.exceptionsExact →
          gemini.handleErrors (some r) = some (k, r.message)) ∧
       (∀ m k, (∀ e, r.reason = some e → e ∉ gemini.exceptionsExact.map Prod.fst) →
          r.message = some m → (m, k) ∈ gemini.exceptionsExact →
          gemini.handleErrors (some r) = some (k, r.message)) ∧
       ((∀ e, r.reason = some e → e ∉ gemini.exceptionsExact.map Prod.fst) →
        (∀ m, r.message = some m → m ∉ gemini.exceptionsExact.map Prod.fst) →
          gemini.handleErrors (some r) = some (.exchangeError, r.message)))) := by
  have hnodupDx : (dx.exceptionsExact.map Prod.fst).Nodup := by decide
  have hnodupGem : (gemini.exceptionsExact.map Prod.fst).Nodup := by decide
  constructor
  · intro r e he hne
    rw [dx_handleErrors_shape r e he hne]
    constructor
    · intro k hk
      rw [find_entry_of_mem hnodupDx hk]
    · intro hnm
      rw [find_none_of_not_mem hnm]
      constructor
      · intro bk k hb
        rw [hb]
      · intro hb
        rw [hb]
  · intro r hres
    rw [gemini_handleErrors_shape r hres]
    refine ⟨?_, ?_, ?_⟩
    · intro e k hre hk
      simp only [hre, Option.some_bind]
      rw [find_entry_of_mem hnodupGem hk]
    · intro m k hmiss hm hk
      have hr : r.reason.bind (fun e => gemini.exceptionsExact.find? (fun kv => kv.1 == e)) = none := by
        cases hre : r.reason with
        | none => rfl
        | some e =>
          simp only [Option.some_bind]
          exact find_none_of_not_mem (hmiss e hre)
      simp only [hr, hm, Option.some_bind]
      rw [find_entry_of_mem hnodupGem hk]
    · intro hmissR hmissM
      have hr : r.reason.bind (fun e => gemini.exceptionsExact.find? (fun kv => kv.1 == e)) = none := by
        cases hre : r.reason with
        | none => rfl
        | some e =>
          simp only [Option.some_bind]
          exact find_none_of_not_mem (hmissR e hre)
      have hm : r.message.bind (fun m => gemini.exceptionsExact.find? (fun kv => kv.1 == m)) = none := by
        cases hme : r.message with
        | none => rfl
        | some m =>
          simp only [Option.some_bind]
          exact find_none_of_not_mem (hmissM m hme)
      have hb : r.message.bind (fun m => findBroadlyMatchedKey gemini.exceptionsBroad m) = none := by
        cases hme : r.message with
        | none => rfl
        | some m => rfl
      simp only [hr, hm, hb]

/-- C2 witness: the exact-match code `EOF` raises the mapped `BadRequest`,
a broad-match message raises `RequestTimeout`, an unmapped dx error raises
the generic `ExchangeError` carrying the response, and gemini's exact
reason `InvalidNonce` raises the mapped `InvalidNonce`. -/
theorem c2_handleErrors_dispatch_witness :
    dx.handleErrors (some ⟨some "EOF"⟩) = some (.badRequest, ⟨some "EOF"⟩) ∧
    dx.handleErrors (some ⟨some "the request timed out while processing"⟩) =
      some (.requestTimeout, ⟨some "the request timed out while processing"⟩) ∧
    dx.handleErrors (some ⟨some "zzz"⟩) = some (.exchangeError, ⟨some "zzz"⟩) ∧
    gemini.handleErrors (some ⟨some "error", some "InvalidNonce", some "Out-of-sequence nonce"⟩) =
      some (.invalidNonce, some "Out-of-sequence nonce") := by
  refine ⟨?_, ?_, ?_, ?_⟩
  · exact (c2_handleErrors_dispatch.1 ⟨some "EOF"⟩ "EOF" rfl (by decide)).1
      .badRequest (by decide)
  · exact ((c2_handleErrors_dispatch.1 ⟨some "the request timed out while processing"⟩
      "the request timed out while processing" rfl (by decide)).2 (by decide)).1
      "request timed out" .requestTimeout (by decide)
  · exact ((c2_handleErrors_dispatch.1 ⟨some "zzz"⟩ "zzz" rfl (by decide)).2
      (by decide)).2 (by decide)
  · exact (c2_handleErrors_dispatch.2
      ⟨some "error", some "InvalidNonce", some "Out-of-sequence nonce"⟩ rfl).1
      "InvalidNonce" .invalidNonce rfl (by decide)

theorem collectE_ok_mem {ε α β : Type} (f : α → Except ε β) :
    ∀ (xs : List α) (ys : List β), collectE f xs = .ok ys →
      ∀ y ∈ ys, ∃ x ∈ xs, f x = .ok y := by
  intro xs
  induction xs with
  | nil =>
    intro ys h y hy
    simp only [collectE] at h
    injection h with h
    subst h
    simp at hy
  | cons a as ih =>
    intro ys h y hy
    cases hfa : f a with
    | error e =>
      simp only [collectE, hfa] at h
      exact Except.noConfusion h
    | ok b =>
      cases hca : collectE f as with
      | error e =>
        simp only [collectE, hfa, hca] at h
        exact Except.noConfusion h
      | ok bs =>
        simp only [collectE, hfa, hca] at h
        injection h with h
        subst h
        rcases List.mem_cons.mp hy with h1 | h1
        · exact ⟨a, List.mem_cons_self a as, h1 ▸ hfa⟩
        · obtain ⟨x, hx, hfx⟩ := ih bs hca y h1
          exact ⟨x, List.mem_cons_of_mem a hx, hfx⟩

/-- C3: every market record built by a market loader has
`symbol = base + "/" + quote` with both halves being
`commonCurrencyCode` of an exchange-native code: for dx `fetchMarkets`,
gemini `fetchMarketsFromAPI` and `fetchMarketsFromWeb`, and bleutrade
`parseSymbol` (which returns the symbol string directly). -/
theorem c3_market_symbol_normalization :
    (∀ (ccc : String → String) (log10 : ℚ → ℚ) (instruments : List dx.DxInstrument)
       (res : List (MarketRec dx.DxInstrument)),
       dx.fetchMarkets ccc log10 instruments = .ok res →
       ∀ m ∈ res, m.symbol = jsStr m.base ++ "/" ++ jsStr m.quote ∧
         ∃ b q, m.base = some (ccc b) ∧ m.quote = Option.map ccc q) ∧
    (∀ (ccc : String → String) (ids : List String),
       ∀ m ∈ gemini.fetchMarketsFromAPI ccc ids,
         m.symbol = jsStr m.base ++ "/" ++ jsStr m.quote ∧
         ∃ b q, m.base = some (ccc b) ∧ m.quote = some (ccc q)) ∧
    (∀ (ccc : String → String) (response : String) (res : List (MarketRec String)),
       gemini.fetchMarketsFromWeb ccc response = .ok res →
       ∀ m ∈ res, m.symbol = jsStr m.base ++ "/" ++ jsStr m.quote ∧
         ∃ b q, m.base = some (ccc b) ∧ m.quote = some (ccc q)) ∧
    (∀ (ccc : String → String) (sep id : String),
       ∃ b q, bleutrade.parseSymbol ccc sep id = ccc b ++ "/" ++ jsStr (Option.map ccc q)) := by
  refine ⟨?_, ?_, ?_, ?_⟩
  · intro ccc log10 instruments res hres m hm
    obtain ⟨instr, hin, hok⟩ := collectE_ok_mem _ instruments res hres m hm
    cases hfn : instr.asset.bind dx.DxAsset.fullName with
    | none =>
      simp only [dx.mkMarket, hfn] at hok
      exact Except.noConfusion hok
    | some fn =>
      simp only [dx.mkMarket, hfn] at hok
      injection hok with hok
      subst hok
      exact ⟨rfl, ⟨_, _, rfl, rfl⟩⟩
  · intro ccc ids m hm
    simp only [gemini.fetchMarketsFromAPI, List.mem_map] at hm
    obtain ⟨id, hid, rfl⟩ := hm
    exact ⟨rfl, ⟨_, _, rfl, rfl⟩⟩
  · intro ccc response res hres m hm
    simp only [gemini.fetchMarketsFromWeb] at hres
    split_ifs at hres
    obtain ⟨row, hrow, hok⟩ := collectE_ok_mem _ _ _ hres m hm
    simp only [gemini.mkMarketFromWebRow] at hok
    split_ifs at hok
    injection hok with hok
    subst hok
    exact ⟨rfl, ⟨_, _, rfl, rfl⟩⟩
  · intro ccc sep id
    exact ⟨(jsSplit id sep).headD "", (jsSplit id sep)[1]?, rfl⟩

/-- C3 witness: the single market loaded from the native id `btcusd` (with
the identity common-currency normalization) carries
`symbol = base + "/" + quote`. -/
theorem c3_market_symbol_normalization_witness :
    (gemini.mkMarketFromAPI (fun s => s) "btcusd").symbol =
      jsStr (gemini.mkMarketFromAPI (fun s => s) "btcusd").base ++ "/" ++
      jsStr (gemini.mkMarketFromAPI (fun s => s) "btcusd").quote := by
  exact (c3_market_symbol_normalization.2.1 (fun s => s) ["btcusd"]
    (gemini.mkMarketFromAPI (fun s => s) "btcusd")
    (by simp [gemini.fetchMarketsFromAPI])).1

/-- C4: every normalized record produced by the cited parse functions and
market loaders carries in `info` the untransformed exchange-native payload
it was parsed from: the unwrapped raw ticker for dx `parseTicker`, the raw
transfer for gemini `parseTransaction`, the raw order for bleutrade
`parseOrder`, the raw trade for gemini `parseTrade`, and for the market
loaders the native instrument (dx) and the native symbol id (gemini). -/
theorem c4_info_field_preserved :
    (∀ (iso : JsNumber → Option String) (symbolOf : Int → String) (k : Int)
       (p : dx.DxRawTicker), (dx.parseTicker iso symbolOf k p).info = p) ∧
    (∀ (cById : String → Option String) (iso : Option Int → Option String)
       (t : gemini.GeminiRawTransaction) (cur : Option String),
       (gemini.parseTransaction cById iso t cur).info = t) ∧
    (∀ (cById : String → Option String) (ccc : String → String)
       (iso : Option Int → Option String) (t : gemini.GeminiRawTrade)
       (ms : Option String), (gemini.parseTrade cById ccc iso t ms).info = t) ∧
    (∀ (p8 : String → Option Int) (iso : Option Int → Option String)
       (ccc : String → String) (cById : String → Option String)
       (mById : String → Option bleutrade.BleuMarketRef) (flag : Bool) (sep : String)
       (o : bleutrade.BleuRawOrder) (mArg : Option bleutrade.BleuMarketRef),
       (bleutrade.parseOrder p8 iso ccc cById mById flag sep o mArg).info = o) ∧
    (∀ (ccc : String → String) (log10 : ℚ → ℚ) (instruments : List dx.DxInstrument)
       (res : List (MarketRec dx.DxInstrument)),
       dx.fetchMarkets ccc log10 instruments = .ok res →
       ∀ m ∈ res, ∃ instr ∈ instruments, m.info = instr) ∧
    (∀ (ccc : String → String) (ids : List String),
       ∀ m ∈ gemini.fetchMarketsFromAPI ccc ids, m.info ∈ ids) := by
  refine ⟨fun _ _ _ _ => rfl, fun _ _ _ _ => rfl, fun _ _ _ _ _ => rfl,
          fun _ _ _ _ _ _ _ _ _ => rfl, ?_, ?_⟩
  · intro ccc log10 instruments res hres m hm
    obtain ⟨instr, hin, hok⟩ := collectE_ok_mem _ instruments res hres m hm
    refine ⟨instr, hin, ?_⟩
    cases hfn : instr.asset.bind dx.DxAsset.fullName with
    | none =>
      simp only [dx.mkMarket, hfn] at hok
      exact Except.noConfusion hok
    | some fn =>
      simp only [dx.mkMarket, hfn] at hok
      injection hok with hok
      subst hok
      rfl
  · intro ccc ids m hm
    simp only [gemini.fetchMarketsFromAPI, List.mem_map] at hm
    obtain ⟨id, hid, rfl⟩ := hm
    exact hid

/-- C4 witness: a concrete dx instrument list loads to a market whose
`info` is that very instrument, and a concrete dx raw ticker is held
untransformed in the parsed ticker's `info`. -/
theorem c4_info_field_preserved_witness :
    (dx.parseTicker (fun _ => none) (fun _ => "BTC/USD") 1
       ⟨some 2, some 1, none, none, none, some 3, some 1000⟩).info =
      ⟨some 2, some 1, none, none, none, some 3, some 1000⟩ ∧
    (gemini.mkMarketFromAPI (fun s => s) "btcusd").info ∈ ["btcusd"] := by
  constructor
  · exact c4_info_field_preserved.1 (fun _ => none) (fun _ => "BTC/USD") 1
      ⟨some 2, some 1, none, none, none, some 3, some 1000⟩
  · exact c4_info_field_preserved.2.2.2.2.2 (fun s => s) ["btcusd"]
      (gemini.mkMarketFromAPI (fun s => s) "btcusd")
      (by simp [gemini.fetchMarketsFromAPI])

/-- C5: for private endpoints `sign` fails fast with
`AuthenticationError` before any request is produced: for dx when no
`accessToken` is held (missing prior `signIn`) or when the current time is
at or past the stored expiry; for gemini when a required credential is
missing. -/
theorem c5_sign_auth_failfast :
    (∀ (α : Type) (options : dx.Options) (now : Int) (apiUrl : String)
       (urlencode : dx.RpcRequest α → String) (path method : String) (params : α),
       options.accessToken = none →
       dx.sign options now apiUrl urlencode path "private" method params =
         .error .authenticationError) ∧
    (∀ (α : Type) (options : dx.Options) (now : Int) (apiUrl : String)
       (urlencode : dx.RpcRequest α → String) (path method : String) (params : α)
       (token : String) (expires : Int),
       options.accessToken = some token → options.expires = some expires →
       expires ≤ now →
       dx.sign options now apiUrl urlencode path "private" method params =
         .error .authenticationError) ∧
    (∀ (apiKey secret : Option String) (nonce : Int)
       (jsonPayload : String → Int → String) (b64 : String → String)
       (hmac : String → String → String) (apiUrls : String → String)
       (version path method queryStr : String),
       apiKey = none ∨ secret = none →
       gemini.sign apiKey secret nonce jsonPayload b64 hmac apiUrls
         version path "private" method queryStr = .error .authenticationError) := by
  refine ⟨?_, ?_, ?_⟩
  · intro α options now apiUrl urlencode path method params htok
    simp [dx.sign, htok]
  · intro α options now apiUrl urlencode path method params token expires htok hexp hle
    simp [dx.sign, htok, hexp, hle]
  · intro apiKey secret nonce jsonPayload b64 hmac apiUrls version path method queryStr hcred
    rcases hcred with h | h
    · subst h
      simp [gemini.sign, checkRequiredCredentials]
    · subst h
      cases apiKey <;> simp [gemini.sign, checkRequiredCredentials]

/-- C5 witness: with no held access token, with an expired token, and with
a missing secret, the private `sign` calls all fail with
`AuthenticationError`. -/
theorem c5_sign_auth_failfast_witness :
    dx.sign (α := Unit) ⟨none, none⟩ 0 "https://acl.dx.exchange" (fun _ => "")
      "Balance.Get" "private" "POST" () = .error .authenticationError ∧
    dx.sign (α := Unit) ⟨some "tok", some 5⟩ 10 "https://acl.dx.exchange" (fun _ => "")
      "Balance.Get" "private" "POST" () = .error .authenticationError ∧
    gemini.sign (some "key") none 0 (fun _ _ => "") (fun s => s) (fun _ s => s)
      (fun _ => "") "v1" "order/new" "private" "POST" "" =
      .error .authenticationError := by
  refine ⟨?_, ?_, ?_⟩
  · exact c5_sign_auth_failfast.1 Unit ⟨none, none⟩ 0 _ _ _ _ () rfl
  · exact c5_sign_auth_failfast.2.1 Unit ⟨some "tok", some 5⟩ 10 _ _ _ _ () "tok" 5
      rfl rfl (by norm_num)
  · exact c5_sign_auth_failfast.2.2 (some "key") none 0 _ _ _ _ _ _ _ _ (Or.inr rfl)

theorem find_symbol_some {α : Type} (ms : List (MarketRec α)) (s : String)
    (h : s ∈ ms.map MarketRec.symbol) :
    ∃ m, ms.find? (fun m => m.symbol == s) = some m := by
  induction ms with
  | nil => simp at h
  | cons m t ih =>
    by_cases hm : (m.symbol == s) = true
    · exact ⟨m, by rw [List.find?_cons, hm]⟩
    · have hsplit : s = m.symbol ∨ s ∈ t.map MarketRec.symbol := by
        rw [List.map_cons] at h
        exact List.mem_cons.mp h
      have hs : s ∈ t.map MarketRec.symbol := by
        rcases hsplit with h1 | h1
        · exact absurd (beq_iff_eq.mpr h1.symm) hm
        · exact h1
      obtain ⟨m2, hm2⟩ := ih hs
      refine ⟨m2, ?_⟩
      rw [List.find?_cons]
      rw [Bool.not_eq_true] at hm
      rw [hm]
      exact hm2

/-- C7: the cited symbol-scoped methods (dx `fetchTicker`, gemini
`fetchOpenOrders` with a symbol, bleutrade `fetchOrderBook`) populate the
market cache via `loadMarkets` first and only then resolve the symbol, so
starting from an unpopulated cache a symbol of the exchange's market list
never fails with an unknown-symbol error. -/
theorem c7_loadMarkets_before_symbol_resolution :
    ∀ (α : Type) (fetched : List (MarketRec α)) (st : ExchangeState α) (s : String),
      st.markets = none → s ∈ fetched.map MarketRec.symbol →
      ((dx.fetchTickerStep fetched st s).1.markets = some fetched ∧
       ∃ req, (dx.fetchTickerStep fetched st s).2 = .ok req) ∧
      ((gemini.fetchOpenOrdersStep fetched st (some s)).1.markets = some fetched ∧
       ∃ r, (gemini.fetchOpenOrdersStep fetched st (some s)).2 = .ok r) ∧
      (∀ lim, (bleutrade.fetchOrderBookStep fetched st s lim).1.markets = some fetched ∧
       ∃ r, (bleutrade.fetchOrderBookStep fetched st s lim).2 = .ok r) := by
  intro α fetched st s hnone hmem
  have hload : loadMarkets fetched st = ⟨some fetched⟩ := by
    unfold loadMarkets
    rw [hnone]
  obtain ⟨m, hfind⟩ := find_symbol_some fetched s hmem
  have hmarket : market (⟨some fetched⟩ : ExchangeState α) s = .ok m := by
    simp only [market, hfind]
  refine ⟨⟨?_, ?_⟩, ⟨?_, ?_⟩, ?_⟩
  · simp only [dx.fetchTickerStep, hload, hmarket]
  · simp only [dx.fetchTickerStep, hload, hmarket]
    exact ⟨_, rfl⟩
  · simp only [gemini.fetchOpenOrdersStep, hload, hmarket]
  · simp only [gemini.fetchOpenOrdersStep, hload, hmarket]
    exact ⟨_, rfl⟩
  · intro lim
    constructor
    · simp only [bleutrade.fetchOrderBookStep, hload, hmarket]
    · simp only [bleutrade.fetchOrderBookStep, hload, hmarket]
      exact ⟨_, rfl⟩

/-- C7 witness: starting from an empty cache, resolving the valid symbol
`BTC/USD` after the implicit `loadMarkets` succeeds (never the
unknown-symbol failure) and the cache is populated. -/
theorem c7_loadMarkets_before_symbol_resolution_witness :
    (dx.fetchTickerStep [sampleMarket] (⟨none⟩ : ExchangeState Unit) "BTC/USD").1.markets
      = some [sampleMarket] ∧
    (dx.fetchTickerStep [sampleMarket] (⟨none⟩ : ExchangeState Unit) "BTC/USD").2 ≠
      .error MarketError.unknownSymbol := by
  have h := c7_loadMarkets_before_symbol_resolution Unit [sampleMarket] ⟨none⟩ "BTC/USD"
    rfl (by simp [sampleMarket])
  refine ⟨h.1.1, ?_⟩
  obtain ⟨req, hreq⟩ := h.1.2
  rw [hreq]
  simp

/-- C8: gemini `withdraw` with an invalid destination address fails
address validation before any network call — including market loading —
is issued: no network operations happen and the result is the validation
error. -/
theorem c8_withdraw_invalid_address_no_network :
    ∀ (β : Type) (isValidAddress : String → Bool) (currencyIdOf : String → Option String)
      (txHashOf : β → Option String) (response : β) (code : String) (amount : ℚ)
      (address : String),
      isValidAddress address = false →
      gemini.withdraw isValidAddress currencyIdOf txHashOf response code amount address =
        ([], .error .invalidAddress) := by
  intro β isValidAddress currencyIdOf txHashOf response code amount address hbad
  simp [gemini.withdraw, checkAddress, hbad]

/-- C8 witness: a rejected address yields no network operations and the
address-validation error. -/
theorem c8_withdraw_invalid_address_no_network_witness :
    gemini.withdraw (β := Unit) (fun _ => false) (fun _ => none) (fun _ => none) ()
      "BTC" 1 "not-an-address" = ([], .error .invalidAddress) :=
  c8_withdraw_invalid_address_no_network Unit (fun _ => false) (fun _ => none)
    (fun _ => none) () "BTC" 1 "not-an-address" rfl

/-- C9: gemini `createOrder` refuses every `type = 'market'` call with
`ExchangeError` before issuing any order request, and every issued
`type = 'limit'` order request carries the literal type
`'exchange limit'`. -/
theorem c9_gemini_createOrder_market_refused_limit_literal :
    ∀ (α : Type) (fetched : List (MarketRec α)) (st : ExchangeState α) (nonce : Int)
      (symbol side : String) (amount : ℚ) (price : Option ℚ),
      ((gemini.createOrder fetched st nonce symbol "market" side amount price).2 =
         .error .exchangeError) ∧
      (∀ req, (gemini.createOrder fetched st nonce symbol "limit" side amount price).2 =
         .ok req → req.type = "exchange limit") := by
  intro α fetched st nonce symbol side amount price
  constructor
  · simp [gemini.createOrder]
  · intro req hreq
    simp only [gemini.createOrder] at hreq
    rw [if_neg (by decide : ¬ ("limit" = "market"))] at hreq
    rcases hmk : market (loadMarkets fetched st) symbol with e | m <;> rw [hmk] at hreq
    · exact Except.noConfusion hreq
    · rcases price with _ | p <;> simp only at hreq
      · exact Except.noConfusion hreq
      · injection hreq with hreq
        rw [← hreq]

/-- C9 witness: a concrete market-order call is refused with
`ExchangeError`, and a concrete successfully issued limit order carries
the literal type `'exchange limit'`. -/
theorem c9_gemini_createOrder_witness :
    (gemini.createOrder [sampleMarket] (⟨none⟩ : ExchangeState Unit) 1
       "BTC/USD" "market" "buy" 1 (some 2)).2 = .error .exchangeError ∧
    (gemini.GeminiOrderRequest.mk "1" "btcusd" 1 2 "buy" "exchange limit").type =
      "exchange limit" := by
  constructor
  · exact (c9_gemini_createOrder_market_refused_limit_literal Unit [sampleMarket]
      ⟨none⟩ 1 "BTC/USD" "buy" 1 (some 2)).1
  · exact (c9_gemini_createOrder_market_refused_limit_literal Unit [sampleMarket]
      ⟨none⟩ 1 "BTC/USD" "buy" 1 (some 2)).2
      (gemini.GeminiOrderRequest.mk "1" "btcusd" 1 2 "buy" "exchange limit") rfl

/-- C6 counterexample: dx `parseTicker` on a raw ticker whose `time`
field is absent puts `NaN` — not `undefined` — into the normalized
`timestamp` (the source computes `safeInteger (ticker, 'time') / 1000`,
and `undefined / 1000` is `NaN`), so a missing numeric field does not
always yield `undefined`. -/
theorem c6_counterexample_dx_time_missing :
    (dx.DxRawTicker.mk none none none none none none none).time = none ∧
    (dx.parseTicker (fun _ => none) (fun _ => "ETH/USD") 1
       (dx.DxRawTicker.mk none none none none none none none)).timestamp =
      JsNumber.nan ∧
    JsNumber.nan ≠ JsNumber.undef := by
  refine ⟨rfl, rfl, by decide⟩

/-- C6 (amended): for the cited parse functions every numeric field read
from the raw payload yields `undefined` when the source field is absent —
and composite numbers (`cost`, `filled`) are `undefined` when an operand
is missing — never zero or another definite number, with the one
exception the code forces: dx `parseTicker`'s `timestamp`, computed as
`safeInteger (ticker, 'time') / 1000`, yields `NaN` when `time` is
absent. -/
theorem c6_missing_numeric_fields_amended :
    (∀ (iso : JsNumber → Option String) (symbolOf : Int → String) (k : Int)
       (p : dx.DxRawTicker),
       (p.high24 = none → (dx.parseTicker iso symbolOf k p).high = .undef) ∧
       (p.low24 = none → (dx.parseTicker iso symbolOf k p).low = .undef) ∧
       (p.change = none → (dx.parseTicker iso symbolOf k p).change = .undef) ∧
       (p.volume24 = none → (dx.parseTicker iso symbolOf k p).baseVolume = .undef) ∧
       (p.volume24converted = none →
          (dx.parseTicker iso symbolOf k p).quoteVolume = .undef) ∧
       (p.last = none → (dx.parseTicker iso symbolOf k p).last = .undef ∧
          (dx.parseTicker iso symbolOf k p).close = .undef) ∧
       (p.time = none → (dx.parseTicker iso symbolOf k p).timestamp = .nan)) ∧
    (∀ (cById : String → Option String) (ccc : String → String)
       (iso : Option Int → Option String) (t : gemini.GeminiRawTrade) (ms : Option String),
       (t.price = none → (gemini.parseTrade cById ccc iso t ms).price = .undef) ∧
       (t.amount = none → (gemini.parseTrade cById ccc iso t ms).amount = .undef) ∧
       (t.price = none ∨ t.amount = none →
          (gemini.parseTrade cById ccc iso t ms).cost = .undef) ∧
       (t.fee_amount = none → (gemini.parseTrade cById ccc iso t ms).fee = none) ∧
       (t.timestampms = none → (gemini.parseTrade cById ccc iso t ms).timestamp = none)) ∧
    (∀ (p8 : String → Option Int) (iso : Option Int → Option String)
       (ccc : String → String) (cById : String → Option String)
       (mById : String → Option bleutrade.BleuMarketRef) (flag : Bool) (sep : String)
       (o : bleutrade.BleuRawOrder) (mArg : Option bleutrade.BleuMarketRef),
       (o.Price = none →
          (bleutrade.parseOrder p8 iso ccc cById mById flag sep o mArg).price = .undef) ∧
       (o.Quantity = none →
          (bleutrade.parseOrder p8 iso ccc cById mById flag sep o mArg).amount = .undef) ∧
       (o.QuantityRemaining = none →
          (bleutrade.parseOrder p8 iso ccc cById mById flag sep o mArg).remaining = .undef) ∧
       (o.Quantity = none ∨ o.QuantityRemaining = none →
          (bleutrade.parseOrder p8 iso ccc cById mById flag sep o mArg).filled = .undef) ∧
       (o.PricePerUnit = none →
          (bleutrade.parseOrder p8 iso ccc cById mById flag sep o mArg).average = .undef) ∧
       (o.Price = none ∨ o.Quantity = none ∨ o.QuantityRemaining = none →
          (bleutrade.parseOrder p8 iso ccc cById mById flag sep o mArg).cost = .undef)) := by
  refine ⟨?_, ?_, ?_⟩
  · intro iso symbolOf k p
    refine ⟨fun h => ?_, fun h => ?_, fun h => ?_, fun h => ?_, fun h => ?_,
            fun h => ⟨?_, ?_⟩, fun h => ?_⟩ <;>
      simp [dx.parseTicker, h, jsOfOpt]
  · intro cById ccc iso t ms
    refine ⟨fun h => ?_, fun h => ?_, fun h => ?_, fun h => ?_, fun h => ?_⟩
    · simp [gemini.parseTrade, h, jsOfOpt]
    · simp [gemini.parseTrade, h, jsOfOpt]
    · rcases h with h | h
      · simp [gemini.parseTrade, h]
      · rcases hp : t.price with _ | p <;> simp [gemini.parseTrade, h, hp]
    · simp [gemini.parseTrade, h]
    · simp [gemini.parseTrade, h]
  · intro p8 iso ccc cById mById flag sep o mArg
    refine ⟨fun h => ?_, fun h => ?_, fun h => ?_, fun h => ?_, fun h => ?_, fun h => ?_⟩
    · simp [bleutrade.parseOrder, h, jsOfOpt, JsNumber.truthy]
    · simp [bleutrade.parseOrder, h, jsOfOpt]
    · simp [bleutrade.parseOrder, h, jsOfOpt]
    · rcases h with h | h
      · simp [bleutrade.parseOrder, h]
      · rcases hq : o.Quantity with _ | a <;> simp [bleutrade.parseOrder, h, hq]
    · simp [bleutrade.parseOrder, h, jsOfOpt]
    · rcases h with h | h | h
      · simp [bleutrade.parseOrder, h, jsOfOpt]
      · rcases hp : o.Price with _ | pr <;> simp [bleutrade.parseOrder, h, hp, jsOfOpt]
      · rcases hp : o.Price with _ | pr <;>
          rcases hq : o.Quantity with _ | a <;>
          simp [bleutrade.parseOrder, h, hp, hq, jsOfOpt]

/-- C6 witness: a gemini raw trade with absent price, amount, fee and
timestamp fields normalizes them all to `undefined`, and a dx raw ticker
with an absent `high24` yields an `undefined` high. -/
theorem c6_missing_numeric_fields_amended_witness :
    (gemini.parseTrade (fun _ => none) (fun s => s) (fun _ => none)
       ⟨none, some "1", none, none, none, none, none, some "Buy"⟩ none).price = .undef ∧
    (gemini.parseTrade (fun _ => none) (fun s => s) (fun _ => none)
       ⟨none, some "1", none, none, none, none, none, some "Buy"⟩ none).cost = .undef ∧
    (dx.parseTicker (fun _ => none) (fun _ => "ETH/USD") 1
       (dx.DxRawTicker.mk none none none none none (some 3) (some 1000))).high = .undef := by
  refine ⟨?_, ?_, ?_⟩
  · exact (c6_missing_numeric_fields_amended.2.1 (fun _ => none) (fun s => s)
      (fun _ => none) ⟨none, some "1", none, none, none, none, none, some "Buy"⟩ none).1 rfl
  · exact (c6_missing_numeric_fields_amended.2.1 (fun _ => none) (fun s => s)
      (fun _ => none) ⟨none, some "1", none, none, none, none, none, some "Buy"⟩
      none).2.2.1 (Or.inl rfl)
  · exact (c6_missing_numeric_fields_amended.1 (fun _ => none) (fun _ => "ETH/USD") 1
      (dx.DxRawTicker.mk none none none none none (some 3) (some 1000))).1 rfl

/-- C10 counterexample: bleutrade `parseTransaction` does not always
return a non-negative amount: a three-part `Label` overrides the
absolute-valued amount with `parseFloat` of the label's first part,
verbatim — here `-5` on a transaction whose raw `Amount` is the positive
`12`. -/
theorem c10_counterexample_label_negative_amount :
    (bleutrade.parseTransaction (fun _ => none) (fun _ => none) (fun _ => none)
       (fun s => s)
       ⟨some "95820181", some "BTC", some 12, none, some "-5;addr;1", some "x"⟩).map
      (fun r => r.amount) = .ok (.val (-5)) ∧ ¬ ((0 : ℚ) ≤ -5) := by
  constructor
  · rfl
  · norm_num

/-- C10 (amended): bleutrade `parseTransaction` classifies a transaction
as `withdrawal` exactly when the raw `Amount` is negative and as
`deposit` otherwise, and the returned `status` is `canceled` with `txid`
cleared exactly when the raw `TransactionId` is `'CANCELED'` (else `ok`
with the txid passed through).  The returned amount is the absolute value
of the raw `Amount` — hence non-negative — whenever the `Label` does not
split into exactly three `;`-parts; when it does, the amount is re-read
verbatim as `parseFloat` of the label's first part and may be negative. -/
theorem c10_parseTransaction_classification_amended :
    ∀ (p8 : String → Option Int) (iso : Option Int → Option String)
      (cById : String → Option String) (ccc : String → String)
      (t : bleutrade.BleuRawTransaction)
      (rec : gemini.TransactionRec bleutrade.BleuRawTransaction),
      bleutrade.parseTransaction p8 iso cById ccc t = .ok rec →
      ((rec.type = some "withdrawal" ↔ ∃ a, t.Amount = some a ∧ a < 0) ∧
       (rec.type = some "withdrawal" ∨ rec.type = some "deposit") ∧
       (∀ l, t.Label = some l → (jsSplit l ";").length ≠ 3 →
          (∀ a, t.Amount = some a → rec.amount = .val |a| ∧ 0 ≤ |a|) ∧
          (t.Amount = none → rec.amount = .undef)) ∧
       (∀ l, t.Label = some l → (jsSplit l ";").length = 3 →
          rec.amount = parseFloat ((jsSplit l ";").headD "")) ∧
       ((rec.status = "canceled" ∧ rec.txid = none) ↔ t.TransactionId = some "CANCELED") ∧
       (t.TransactionId ≠ some "CANCELED" → rec.status = "ok" ∧ rec.txid = t.TransactionId)) := by
  intro p8 iso cById ccc t rec hres
  cases hlab : t.Label with
  | none =>
    simp only [bleutrade.parseTransaction, hlab] at hres
    exact Except.noConfusion hres
  | some label =>
    simp only [bleutrade.parseTransaction, hlab] at hres
    injection hres with hres
    subst hres
    refine ⟨?_, ?_, ?_, ?_, ?_, ?_⟩
    · rcases hA : t.Amount with _ | a
      · simp [hA]
      · by_cases hlt : a < 0
        · simp only [hA]
          rw [if_pos hlt]
          simp [hlt]
        · simp only [hA]
          rw [if_neg hlt]
          simp [hlt]
    · rcases hA : t.Amount with _ | a
      · simp [hA]
      · by_cases hlt : a < 0
        · simp only [hA]
          rw [if_pos hlt]
          simp
        · simp only [hA]
          rw [if_neg hlt]
          simp
    · intro l hl hlen
      injection hl with hl
      subst hl
      have hb : ((jsSplit label ";").length == 3) = false := beq_eq_false_iff_ne.mpr hlen
      constructor
      · intro a hA
        by_cases hlt : a < 0
        · simp only [hb, hA, jsOfOpt]
          rw [if_neg (by simp), if_pos hlt]
          exact ⟨by rw [abs_of_neg hlt], abs_nonneg a⟩
        · simp only [hb, hA, jsOfOpt]
          rw [if_neg (by simp), if_neg hlt]
          exact ⟨by rw [abs_of_nonneg (not_lt.mp hlt)], abs_nonneg a⟩
      · intro hA
        simp [hb, hA, jsOfOpt]
    · intro l hl hlen
      injection hl with hl
      subst hl
      have hb : ((jsSplit label ";").length == 3) = true := beq_iff_eq.mpr hlen
      simp [hb]
    · by_cases hT : t.TransactionId = some "CANCELED"
      · have hb : (t.TransactionId == some "CANCELED") = true := beq_iff_eq.mpr hT
        simp [hb, hT]
      · have hb : (t.TransactionId == some "CANCELED") = false := beq_eq_false_iff_ne.mpr hT
        simp only [hb]
        rw [if_neg (by simp)]
        simp [hT]
    · intro hT
      have hb : (t.TransactionId == some "CANCELED") = false := beq_eq_false_iff_ne.mpr hT
      simp only [hb]
      rw [if_neg (by simp)]
      exact ⟨rfl, rfl⟩

/-- C10 witness: the documented deposit fixture (positive amount, plain
label, no transaction id) is classified as a non-canceled deposit whose
amount is the raw amount itself. -/
theorem c10_parseTransaction_classification_amended_witness :
    (bleutrade.parseTransaction (fun _ => none) (fun _ => none) (fun _ => none)
       (fun s => s)
       ⟨some "96974373", some "DOGE", some 12, some "2017-09-29 08:10:09",
        some "DQqSjjhzCm3ozT4vAevMUHgv4vsi9LBkoE", none⟩).map
      (fun r => (r.status, r.type, r.amount)) = .ok ("ok", some "deposit", .val 12) := by
  obtain ⟨rec, hrec⟩ : ∃ rec,
      bleutrade.parseTransaction (fun _ => none) (fun _ => none) (fun _ => none)
        (fun s => s)
        ⟨some "96974373", some "DOGE", some 12, some "2017-09-29 08:10:09",
         some "DQqSjjhzCm3ozT4vAevMUHgv4vsi9LBkoE", none⟩ = .ok rec := ⟨_, rfl⟩
  have h := c10_parseTransaction_classification_amended (fun _ => none) (fun _ => none)
    (fun _ => none) (fun s => s) _ rec hrec
  have hst := h.2.2.2.2.2 (by decide)
  have hty : rec.type = some "deposit" := by
    rcases h.2.1 with hw | hd
    · obtain ⟨a, ha, hlt⟩ := h.1.mp hw
      injection ha with ha
      rw [← ha] at hlt
      norm_num at hlt
    · exact hd
  have ham := (h.2.2.1 "DQqSjjhzCm3ozT4vAevMUHgv4vsi9LBkoE" rfl (by decide)).1 12 rfl
  rw [hrec]
  have habs : |(12 : ℚ)| = 12 := abs_of_nonneg (by norm_num)
  rw [Except.map]
  refine congrArg Except.ok ?_
  rw [hst.1, hty, ham.1, habs]
